import Mathlib

/-!
Verification of the temporal engine of the `lif` task/reminder manager
(the large application file: time-spec parsing, the reminder state
machine, the daily-reset calculation and the evaluation-loop tick).

Modelling conventions (shallow embedding of the Go code):

* Go strings are modelled as `List Char`.
* `time.Time` is modelled as `Int`: nanoseconds since an epoch that is
  aligned to a local midnight.  The local zone is modelled as a fixed
  offset zone (no DST), so `time.Date(now.Year(), now.Month(),
  now.Day(), h, m, 0, 0, now.Location())` becomes
  `dayStart now + h*goHour + m*goMinute`, where `dayStart` floors a
  timestamp to its day, and `AddDate(0, 0, -1)` becomes `- goDay`.
  Go's zero `time.Time{}` is the timestamp `0`; `IsZero` is `= 0`.
* `time.Duration` is a 64-bit integer count of nanoseconds; the
  multiplications performed by the code are modelled with 64-bit
  wrap-around (`durMul`), and `time.Time.Sub`/`time.Until` saturates at
  the 64-bit bounds (`satDur`), as in the Go runtime.
* Every function that reads `time.Now()` in the source takes the
  current instant as an explicit `now : Int` parameter (one instant per
  evaluation pass).
* Functions returning `(time.Time, bool)` (a result and a success flag)
  are modelled with `Option Int`.
-/

/-- Go `'0' <= c && c <= '9'`, the digit test used by `strconv`. -/
def isGoDigit (c : Char) : Bool := 48 ≤ c.toNat && c.toNat ≤ 57

/-- Digit evaluation of `strconv`: fold decimal digits to a number. -/
def evalDigits (s : List Char) : Nat :=
  s.foldl (fun a c => 10 * a + (c.toNat - 48)) 0

/-- Digit part of Go `strconv.Atoi`: one or more decimal digits, the
whole remaining string, with the signed value kept within the `int64`
range; out-of-range values are a range error, modelled as `none`. -/
def goAtoiCore (neg : Bool) (digits : List Char) : Option Int :=
  if digits = [] then none
  else if digits.all isGoDigit then
    let v : Int := if neg then -((evalDigits digits : Int)) else (evalDigits digits : Int)
    if -9223372036854775808 ≤ v ∧ v ≤ 9223372036854775807 then some v else none
  else none

/-- Go `strconv.Atoi`: an optional single sign followed by one or more
decimal digits, whole string consumed, value within the `int64` range;
any other input yields an error, modelled as `none`. -/
def goAtoi (s : List Char) : Option Int :=
  match s with
  | [] => none
  | c :: rest =>
    if c = '-' then goAtoiCore true rest
    else if c = '+' then goAtoiCore false rest
    else goAtoiCore false (c :: rest)

/-- Go `strings.HasSuffix`. -/
def hasSuffix (s suffix : List Char) : Bool := decide (suffix <:+ s)

/-- Go `strings.TrimSuffix`: drop `suffix` from the end when present. -/
def trimSuffix (s suffix : List Char) : List Char :=
  if hasSuffix s suffix then s.take (s.length - suffix.length) else s

/-- Wrap an integer into the signed 64-bit range, the behaviour of Go
`int64`/`time.Duration` multiplication on overflow. -/
def wrap64 (x : Int) : Int :=
  (x + 9223372036854775808) % 18446744073709551616 - 9223372036854775808

/-- Go `time.Duration` multiplication (64-bit, wrapping). -/
def durMul (a b : Int) : Int := wrap64 (a * b)

/-- Go `time.Time.Sub` / `time.Until`: the difference saturates at the
`time.Duration` bounds. -/
def satDur (x : Int) : Int :=
  if x < -9223372036854775808 then -9223372036854775808
  else if x > 9223372036854775807 then 9223372036854775807
  else x

/-- Go `time.Until(t)` evaluated when the clock reads `now`. -/
def goUntil (t now : Int) : Int := satDur (t - now)

/-- Nanoseconds in Go `time.Second`. -/
def goSecond : Int := 1000000000

/-- Nanoseconds in Go `time.Minute`. -/
def goMinute : Int := 60000000000

/-- Nanoseconds in Go `time.Hour`. -/
def goHour : Int := 3600000000000

/-- Nanoseconds in 24 hours (one calendar day in the fixed-offset
model). -/
def goDay : Int := 86400000000000

/-- Midnight of the day containing `t` in the fixed-offset local zone:
the model of `time.Date(t.Year(), t.Month(), t.Day(), 0, 0, 0, 0,
t.Location())`. -/
def dayStart (t : Int) : Int := t - t % goDay

/- ---------------------------------------------------------------- -/
/- TimeSpecParser                                                    -/
/- ---------------------------------------------------------------- -/

/-- One suffix block of `parseCountdown`: inside a block guarded by
`strings.HasSuffix`, the Go code returns only when `strconv.Atoi`
succeeds on the trimmed numeric text, and otherwise falls through to
the next block; `attemptNum` is that guarded number parse. -/
def attemptNum (matched : Bool) (numStr : List Char) : Option Int :=
  if matched then goAtoi numStr else none

/-- Suffix literal "d". -/
def strD : List Char := ['d']

/-- Suffix literal "w". -/
def strW : List Char := ['w']

/-- Suffix literal "m". -/
def strM : List Char := ['m']

/-- Suffix literal "min". -/
def strMin : List Char := ['m', 'i', 'n']

/-- Suffix literal "h". -/
def strH : List Char := ['h']

/-- Suffix literal "hr". -/
def strHr : List Char := ['h', 'r']

/-- Suffix literal "s". -/
def strS : List Char := ['s']

/-- Suffix literal "sec". -/
def strSec : List Char := ['s', 'e', 'c']

/-- Go `parseCountdown(countdownStr)`, with the `time.Now()` it reads
passed as `now`.  The suffix rules are tried in source order (days,
weeks, minutes, hours, seconds); a block whose numeric prefix fails
`Atoi` falls through to the next block.  `some target` models the
`(target, true)` return, `none` the `(time.Time{}, false)` return. -/
def parseCountdown (countdownStr : List Char) (now : Int) : Option Int :=
  match attemptNum (hasSuffix countdownStr strD) (trimSuffix countdownStr strD) with
  | some days => some (now + durMul (durMul days 24) goHour)
  | none =>
  match attemptNum (hasSuffix countdownStr strW) (trimSuffix countdownStr strW) with
  | some weeks => some (now + durMul (durMul (durMul weeks 7) 24) goHour)
  | none =>
  match attemptNum (hasSuffix countdownStr strM || hasSuffix countdownStr strMin)
      (trimSuffix (trimSuffix countdownStr strMin) strM) with
  | some minutes => some (now + durMul minutes goMinute)
  | none =>
  match attemptNum (hasSuffix countdownStr strH || hasSuffix countdownStr strHr)
      (trimSuffix (trimSuffix countdownStr strHr) strH) with
  | some hours => some (now + durMul hours goHour)
  | none =>
  match attemptNum (hasSuffix countdownStr strS || hasSuffix countdownStr strSec)
      (trimSuffix (trimSuffix countdownStr strSec) strS) with
  | some seconds => some (now + durMul seconds goSecond)
  | none => none

/-- Go `getnum` from `time.Parse`: read a one- or two-digit number;
with `fixed` set (a zero-padded layout element such as "04" or "15")
exactly two digits are required. -/
def getnum2 (fixed : Bool) (s : List Char) : Option (Nat × List Char) :=
  match s with
  | [] => none
  | [c1] =>
    if isGoDigit c1 && !fixed then some (c1.toNat - 48, []) else none
  | c1 :: c2 :: rest =>
    if isGoDigit c1 then
      if isGoDigit c2 then some (10 * (c1.toNat - 48) + (c2.toNat - 48), rest)
      else if fixed then none
      else some (c1.toNat - 48, c2 :: rest)
    else none

/-- Go `time.Parse` with one of the four 12-hour layouts
`"3:04PM"`, `"3:04 PM"`, `"3:04pm"`, `"3:04 pm"`: a 1-2 digit hour in
0..12, `':'`, exactly two minute digits in 0..59, then — when the
layout has a space — one or more value spaces (Go's `skip` matches a
layout space via `cutspace`, consuming every leading space after
requiring at least one), and a two-letter AM/PM marker in the layout's
case; the whole string must be consumed.  The marker is then folded
into a 24-hour hour exactly as `time.Parse` does. -/
def parse12core (hasSpace lowerMarker : Bool) (s : List Char) : Option (Nat × Nat) :=
  match getnum2 false s with
  | none => none
  | some (h, rest) =>
    if h > 12 then none
    else
      match rest with
      | ':' :: r2 =>
        match getnum2 true r2 with
        | none => none
        | some (m, r3) =>
          if m > 59 then none
          else
            match (if hasSpace then
                     match r3 with
                     | ' ' :: rs => some (rs.dropWhile (fun c => c == ' '))
                     | _ => none
                   else some r3) with
            | none => none
            | some r5 =>
              match r5 with
              | [a, b] =>
                if a = (if lowerMarker then 'p' else 'P') ∧
                   b = (if lowerMarker then 'm' else 'M') then
                  some ((if h < 12 then h + 12 else h), m)
                else if a = (if lowerMarker then 'a' else 'A') ∧
                        b = (if lowerMarker then 'm' else 'M') then
                  some ((if h = 12 then 0 else h), m)
                else none
              | _ => none
      | _ => none

/-- Go `time.Parse` with the 24-hour layout `"15:04"`: a 1-2 digit
hour in 0..23 (the `stdHour` element is read by `getnum` with
`fixed = false`, so "9:30" is accepted), `':'`, exactly two minute
digits in 0..59, nothing else. -/
def parse24core (s : List Char) : Option (Nat × Nat) :=
  match getnum2 false s with
  | some (h, ':' :: r2) =>
    if h > 23 then none
    else
      match getnum2 true r2 with
      | some (m, []) => if m > 59 then none else some (h, m)
      | _ => none
  | _ => none

/-- Resolution step shared by every alarm format: combine the parsed
hour/minute with `now`'s calendar date (seconds and sub-seconds zero)
and add 24 hours when the result is before `now`
(`alarmTime.Before(now)` is strict). -/
def resolveAlarm (now : Int) (hm : Nat × Nat) : Int :=
  if dayStart now + (hm.1 : Int) * goHour + (hm.2 : Int) * goMinute < now then
    dayStart now + (hm.1 : Int) * goHour + (hm.2 : Int) * goMinute + goDay
  else dayStart now + (hm.1 : Int) * goHour + (hm.2 : Int) * goMinute

/-- Go `parseAlarmTime(alarmStr)` with its `time.Now()` passed as
`now`: the four 12-hour layouts are tried in source order, then the
24-hour layout. -/
def parseAlarmTime (alarmStr : List Char) (now : Int) : Option Int :=
  match parse12core false false alarmStr with
  | some hm => some (resolveAlarm now hm)
  | none =>
  match parse12core true false alarmStr with
  | some hm => some (resolveAlarm now hm)
  | none =>
  match parse12core false true alarmStr with
  | some hm => some (resolveAlarm now hm)
  | none =>
  match parse12core true true alarmStr with
  | some hm => some (resolveAlarm now hm)
  | none =>
  match parse24core alarmStr with
  | some hm => some (resolveAlarm now hm)
  | none => none

/- ---------------------------------------------------------------- -/
/- Data model                                                        -/
/- ---------------------------------------------------------------- -/

/-- The `Daily` record (recurring task), engine-relevant fields. -/
structure Daily where
  id : Int
  task : List Char
  priority : List Char
  category : List Char
  deadline : List Char
  status : List Char
  lastCompleted : Int
deriving DecidableEq, Repr

/-- The `Reminder` record. -/
structure Reminder where
  id : Int
  reminder : List Char
  note : List Char
  alarmOrCountdown : List Char
  status : List Char
  createdAt : Int
  targetTime : Int
  isCountdown : Bool
  notified : Bool
  pausedRemaining : Int
deriving DecidableEq, Repr

/-- Status literal "active". -/
def strActive : List Char := ['a', 'c', 't', 'i', 'v', 'e']

/-- Status literal "paused". -/
def strPaused : List Char := ['p', 'a', 'u', 's', 'e', 'd']

/-- Status literal "expired". -/
def strExpired : List Char := ['e', 'x', 'p', 'i', 'r', 'e', 'd']

/-- Status literal "inactive". -/
def strInactive : List Char := ['i', 'n', 'a', 'c', 't', 'i', 'v', 'e']

/-- Status literal "DONE". -/
def strDONE : List Char := ['D', 'O', 'N', 'E']

/-- Status literal "INCOMPLETE". -/
def strINCOMPLETE : List Char := ['I', 'N', 'C', 'O', 'M', 'P', 'L', 'E', 'T', 'E']

/-- Action literal "start". -/
def actStart : List Char := ['s', 't', 'a', 'r', 't']

/-- Action literal "pause". -/
def actPause : List Char := ['p', 'a', 'u', 's', 'e']

/-- Action literal "reset". -/
def actReset : List Char := ['r', 'e', 's', 'e', 't']

/- ---------------------------------------------------------------- -/
/- DailyResetCalculator                                              -/
/- ---------------------------------------------------------------- -/

/-- Go `getMostRecent3AM()`: today's 03:00 local, or yesterday's 03:00
(`AddDate(0, 0, -1)`, a 24-hour step in the fixed-offset model) when
`now` is strictly before today's 03:00. -/
def getMostRecent3AM (now : Int) : Int :=
  let today3AM := dayStart now + 3 * goHour
  if now < today3AM then today3AM - goDay else today3AM

/-- The per-task body of the `resetDailyTasks` loop: a `DONE` task
whose completion instant lies strictly before the boundary is forced
back to `INCOMPLETE` with its completion time cleared to the zero
time. -/
def resetDaily (boundary : Int) (d : Daily) : Daily :=
  if d.status = strDONE ∧ d.lastCompleted < boundary then
    { d with status := strINCOMPLETE, lastCompleted := 0 }
  else d

/-- Go `resetDailyTasks(data)`: apply `resetDaily` at the most recent
3AM boundary to every daily task; the `Bool` is the returned
`resetOccurred` flag (some task was reset). -/
def resetDailyTasks (now : Int) (ds : List Daily) : List Daily × Bool :=
  let boundary := getMostRecent3AM now
  (ds.map (resetDaily boundary),
   ds.any (fun d => decide (d.status = strDONE ∧ d.lastCompleted < boundary)))

/- ---------------------------------------------------------------- -/
/- ReminderStateMachine                                              -/
/- ---------------------------------------------------------------- -/

/-- The user-visible status message produced by
`toggleReminderStatus`, abstracted from its display text. -/
inductive ToggleNote where
  | resumed
  | started
  | alreadyActive
  | pausedOk
  | notActive
  | didReset
deriving DecidableEq, Repr

/-- The re-parse performed by the `start`-from-inactive and `reset`
branches: try `parseCountdown`, then `parseAlarmTime`, on the stored
spec string; on double failure the target fields are left untouched. -/
def reparseTarget (now : Int) (r : Reminder) : Reminder :=
  match parseCountdown r.alarmOrCountdown now with
  | some t => { r with targetTime := t, isCountdown := true }
  | none =>
    match parseAlarmTime r.alarmOrCountdown now with
    | some t => { r with targetTime := t, isCountdown := false }
    | none => r

/-- Go `toggleReminderStatus(action)` restricted to the selected
reminder, with `time.Now()` passed as `now`; the second component is
the status message the branch surfaces (`none` for an unknown
action). -/
def toggleReminderStatus (action : List Char) (now : Int) (r : Reminder) :
    Reminder × Option ToggleNote :=
  if action = actStart then
    if r.status = strPaused then
      ({ (if r.pausedRemaining > 0 then
            { r with targetTime := now + r.pausedRemaining, pausedRemaining := 0 }
          else r) with status := strActive, notified := false }, some .resumed)
    else if r.status = strInactive then
      (reparseTarget now { r with status := strActive, notified := false }, some .started)
    else (r, some .alreadyActive)
  else if action = actPause then
    if r.status = strActive then
      ({ (if r.targetTime ≠ 0 then
            { r with pausedRemaining :=
                if goUntil r.targetTime now < 0 then 0 else goUntil r.targetTime now }
          else r) with status := strPaused }, some .pausedOk)
    else (r, some .notActive)
  else if action = actReset then
    (reparseTarget now { r with status := strActive, notified := false, pausedRemaining := 0 },
      some .didReset)
  else (r, none)

/- ---------------------------------------------------------------- -/
/- EvaluationLoop                                                    -/
/- ---------------------------------------------------------------- -/

/-- The per-reminder body of the `tickMsg` loop in `Update`: when the
reminder has a non-zero target, has not been notified, is `active` and
`time.Now().After(TargetTime)` holds (strict), it is marked notified
and expired and one notification is sent; the `Nat` counts the notify
intents emitted for this reminder during the tick. -/
def tickReminder (now : Int) (r : Reminder) : Reminder × Nat :=
  if r.targetTime ≠ 0 ∧ r.notified = false ∧ r.status = strActive ∧
      r.targetTime < now then
    ({ r with notified := true, status := strExpired }, 1)
  else (r, 0)

/-- One evaluation tick over the whole reminder collection: every
reminder is visited once; the `Nat` is the total number of notify
intents emitted in the tick. -/
def tickReminders (now : Int) (rs : List Reminder) : List Reminder × Nat :=
  (rs.map (fun r => (tickReminder now r).1),
   (rs.map (fun r => (tickReminder now r).2)).sum)

/- ---------------------------------------------------------------- -/
/- Reminder creation (saveEdit, new-reminder branch)                 -/
/- ---------------------------------------------------------------- -/

/-- The new-reminder branch of `saveEdit`: the record starts from Go
zero values (`Status` is the empty string, `TargetTime` the zero time)
and becomes `active` only when one of the two parsers succeeds on the
spec string. -/
def mkNewReminder (nextId : Int) (text note spec : List Char) (now : Int) : Reminder :=
  let base : Reminder :=
    { id := nextId, reminder := text, note := note, alarmOrCountdown := spec,
      status := [], createdAt := now, targetTime := 0, isCountdown := false,
      notified := false, pausedRemaining := 0 }
  match parseCountdown spec now with
  | some t => { base with targetTime := t, isCountdown := true, status := strActive }
  | none =>
    match parseAlarmTime spec now with
    | some t => { base with targetTime := t, isCountdown := false, status := strActive }
    | none => base

/- ---------------------------------------------------------------- -/
/- Decimal numerals (claim-side description of countdown specs)      -/
/- ---------------------------------------------------------------- -/

/-- The ASCII character of a decimal digit. -/
def digitChar (d : Nat) : Char :=
  match d with
  | 0 => '0' | 1 => '1' | 2 => '2' | 3 => '3' | 4 => '4'
  | 5 => '5' | 6 => '6' | 7 => '7' | 8 => '8' | _ => '9'

/-- The decimal numeral of a natural number, as a character list: the
claim-side description of the numeric part `{n}` of a countdown
spec. -/
def natChars (n : Nat) : List Char :=
  if n < 10 then [digitChar n]
  else natChars (n / 10) ++ [digitChar (n % 10)]
decreasing_by exact Nat.div_lt_self (by omega) (by omega)

/-- The eight countdown unit tokens of the spec grammar. -/
inductive CUnit where
  | s | sec | m | min | h | hr | d | w
deriving DecidableEq, Repr

/-- The unit token's characters. -/
def unitChars : CUnit → List Char
  | .s => strS
  | .sec => strSec
  | .m => strM
  | .min => strMin
  | .h => strH
  | .hr => strHr
  | .d => strD
  | .w => strW

/-- The unit's duration in nanoseconds (seconds, minutes, hours,
24-hour days, 7-day weeks). -/
def unitNs : CUnit → Int
  | .s => 1000000000
  | .sec => 1000000000
  | .m => 60000000000
  | .min => 60000000000
  | .h => 3600000000000
  | .hr => 3600000000000
  | .d => 86400000000000
  | .w => 604800000000000

/-- A sample reminder record for concrete instantiations. -/
def sampleReminder (st : List Char) (target pr : Int) (ntf : Bool) : Reminder :=
  { id := 1, reminder := [], note := [], alarmOrCountdown := [],
    status := st, createdAt := 0, targetTime := target, isCountdown := true,
    notified := ntf, pausedRemaining := pr }

/- ---------------------------------------------------------------- -/
/- Helper lemmas: strings                                            -/
/- ---------------------------------------------------------------- -/

theorem hasSuffix_iff {s su : List Char} : hasSuffix s su = true ↔ su <:+ s := by
  simp [hasSuffix]

theorem getLast?_of_suffix {su s : List Char} (h : su <:+ s) (hne : su ≠ []) :
    s.getLast? = su.getLast? := by
  obtain ⟨t, rfl⟩ := h
  rcases List.eq_nil_or_concat su with rfl | ⟨ys, b, rfl⟩
  · exact absurd rfl hne
  · rw [List.concat_eq_append, ← List.append_assoc, List.getLast?_concat,
      List.getLast?_concat]

theorem hasSuffix_eq_false_of_last_ne {s su : List Char} {a b : Char}
    (hs : s.getLast? = some a) (hsu : su.getLast? = some b) (hab : b ≠ a) :
    hasSuffix s su = false := by
  rw [Bool.eq_false_iff]
  intro hcon
  have h := hasSuffix_iff.mp hcon
  have hne : su ≠ [] := by rintro rfl; simp at hsu
  rw [getLast?_of_suffix h hne, hsu] at hs
  exact hab (Option.some_injective _ hs)

theorem hasSuffix_append_self (xs su : List Char) : hasSuffix (xs ++ su) su = true :=
  hasSuffix_iff.mpr (List.suffix_append xs su)

theorem trimSuffix_append_self (xs su : List Char) : trimSuffix (xs ++ su) su = xs := by
  rw [trimSuffix, if_pos (hasSuffix_append_self xs su), List.length_append]
  rw [Nat.add_sub_cancel]
  exact List.take_left xs su

theorem trimSuffix_of_not_suffix {s su : List Char} (h : hasSuffix s su = false) :
    trimSuffix s su = s := by
  rw [trimSuffix, h]; simp

theorem getLast?_append_right (xs su : List Char) (h : su ≠ []) :
    (xs ++ su).getLast? = su.getLast? :=
  getLast?_of_suffix (List.suffix_append xs su) h

theorem hasSuffix_append_ne (xs su su' : List Char) {a b : Char}
    (hsu : su.getLast? = some a) (hsu' : su'.getLast? = some b)
    (hne : b ≠ a) (h : su ≠ []) : hasSuffix (xs ++ su) su' = false :=
  hasSuffix_eq_false_of_last_ne ((getLast?_append_right xs su h).trans hsu) hsu' hne

theorem trimSuffix_append_ne (xs su su' : List Char) {a b : Char}
    (hsu : su.getLast? = some a) (hsu' : su'.getLast? = some b)
    (hne : b ≠ a) (h : su ≠ []) : trimSuffix (xs ++ su) su' = xs ++ su :=
  trimSuffix_of_not_suffix (hasSuffix_append_ne xs su su' hsu hsu' hne h)

/- ---------------------------------------------------------------- -/
/- Helper lemmas: numerals and Atoi                                  -/
/- ---------------------------------------------------------------- -/

theorem digitChar_toNat {d : Nat} (h : d < 10) : (digitChar d).toNat = 48 + d := by
  interval_cases d <;> decide

theorem isGoDigit_digitChar {d : Nat} (h : d < 10) : isGoDigit (digitChar d) = true := by
  interval_cases d <;> decide

theorem natChars_ne_nil (n : Nat) : natChars n ≠ [] := by
  rw [natChars]; split <;> simp

theorem natChars_all_digit (n : Nat) : (natChars n).all isGoDigit = true := by
  induction n using Nat.strong_induction_on with
  | _ n ih =>
    rw [natChars]
    split
    · simp [isGoDigit_digitChar ‹n < 10›]
    · rename_i h
      rw [List.all_append]
      have h1 := ih (n / 10) (Nat.div_lt_self (by omega) (by omega))
      have h2 : isGoDigit (digitChar (n % 10)) = true :=
        isGoDigit_digitChar (Nat.mod_lt n (by omega))
      simp [h1, h2]

theorem natChars_getLast? (n : Nat) :
    (natChars n).getLast? = some (digitChar (n % 10)) := by
  rw [natChars]
  split
  · rename_i h
    rw [Nat.mod_eq_of_lt h]
    rfl
  · exact List.getLast?_concat _

theorem evalDigits_natChars (n : Nat) : evalDigits (natChars n) = n := by
  induction n using Nat.strong_induction_on with
  | _ n ih =>
    rw [natChars]
    split
    · rename_i h
      simp [evalDigits, digitChar_toNat h]
    · rename_i h
      have hlt : n / 10 < n := Nat.div_lt_self (by omega) (by omega)
      have hm : n % 10 < 10 := Nat.mod_lt n (by omega)
      unfold evalDigits at *
      rw [List.foldl_append, ih (n / 10) hlt]
      simp only [List.foldl_cons, List.foldl_nil]
      rw [digitChar_toNat hm]
      omega

theorem goAtoiCore_digits {s : List Char} (hne : s ≠ []) (hd : s.all isGoDigit = true) :
    goAtoiCore false s = if (evalDigits s : Int) ≤ 9223372036854775807 then
      some ((evalDigits s : Int)) else none := by
  rw [goAtoiCore, if_neg hne, if_pos hd]
  simp only [Bool.false_eq_true, if_false]
  have hnn : (0 : Int) ≤ (evalDigits s : Int) := Int.ofNat_nonneg _
  split
  · rename_i hc
    rw [if_pos (by omega)]
  · rename_i hc
    rw [if_neg (by omega)]

theorem goAtoi_all_digits {s : List Char} (hne : s ≠ []) (hd : s.all isGoDigit = true) :
    goAtoi s = if (evalDigits s : Int) ≤ 9223372036854775807 then
      some ((evalDigits s : Int)) else none := by
  match s with
  | c :: rest =>
    have hc : isGoDigit c = true := by
      rw [List.all_cons] at hd; exact (Bool.and_eq_true _ _).mp hd |>.1
    have hcm : ¬ (c = '-') := by
      intro h; subst h; simp [isGoDigit] at hc
    have hcp : ¬ (c = '+') := by
      intro h; subst h; simp [isGoDigit] at hc
    rw [goAtoi, if_neg hcm, if_neg hcp]
    exact goAtoiCore_digits hne hd

theorem goAtoi_natChars {n : Nat} (h : (n : Int) ≤ 9223372036854775807) :
    goAtoi (natChars n) = some ((n : Nat) : Int) := by
  rw [goAtoi_all_digits (natChars_ne_nil n) (natChars_all_digit n),
    evalDigits_natChars, if_pos h]

theorem goAtoi_neg_natChars {n : Nat} (h : (n : Int) ≤ 9223372036854775808) :
    goAtoi ('-' :: natChars n) = some (-((n : Nat) : Int)) := by
  rw [goAtoi, if_pos rfl, goAtoiCore, if_neg (natChars_ne_nil n),
    if_pos (natChars_all_digit n)]
  simp only [evalDigits_natChars, reduceIte]
  rw [if_pos ⟨by omega, by omega⟩]

theorem digitChar_ne_letter {d : Nat} {c : Char} (hd : d < 10) (hc : 57 < c.toNat) :
    c ≠ digitChar d := by
  intro h
  have := digitChar_toNat hd
  rw [← h] at this
  omega

theorem hasSuffix_natChars_letter (n : Nat) {c : Char} (hc : 57 < c.toNat) :
    hasSuffix (natChars n) [c] = false :=
  hasSuffix_eq_false_of_last_ne (natChars_getLast? n) rfl
    (digitChar_ne_letter (Nat.mod_lt n (by omega)) hc)

theorem trimSuffix_natChars_letter (n : Nat) {c : Char} (hc : 57 < c.toNat) :
    trimSuffix (natChars n) [c] = natChars n :=
  trimSuffix_of_not_suffix (hasSuffix_natChars_letter n hc)

/- ---------------------------------------------------------------- -/
/- Helper lemmas: 64-bit arithmetic                                  -/
/- ---------------------------------------------------------------- -/

theorem wrap64_id {x : Int} (h1 : -9223372036854775808 ≤ x)
    (h2 : x ≤ 9223372036854775807) : wrap64 x = x := by
  unfold wrap64; omega

theorem durMul_id {a b : Int} (h1 : -9223372036854775808 ≤ a * b)
    (h2 : a * b ≤ 9223372036854775807) : durMul a b = a * b :=
  wrap64_id h1 h2

theorem attemptNum_false (s : List Char) : attemptNum false s = none := rfl

/-- Main countdown-grammar lemma: on the spec `{n}{unit}` (decimal
numeral of `n` followed by a unit token), when `n * unit` fits the
64-bit duration range, `parseCountdown` succeeds with target
`now + n * unit` exactly. -/
theorem parseCountdown_units (u : CUnit) (n : Nat) (now : Int)
    (h : (n : Int) * unitNs u ≤ 9223372036854775807) :
    parseCountdown (natChars n ++ unitChars u) now
      = some (now + (n : Int) * unitNs u) := by
  have hn0 : (0 : Int) ≤ (n : Int) := Int.ofNat_nonneg n
  cases u <;> simp only [unitNs, unitChars] at h ⊢
  case s =>
    have hn63 : (n : Int) ≤ 9223372036854775807 := by nlinarith
    have hd := hasSuffix_append_ne (natChars n) strS strD rfl rfl (by decide) (by decide)
    have hw := hasSuffix_append_ne (natChars n) strS strW rfl rfl (by decide) (by decide)
    have hm := hasSuffix_append_ne (natChars n) strS strM rfl rfl (by decide) (by decide)
    have hmin := hasSuffix_append_ne (natChars n) strS strMin rfl rfl (by decide) (by decide)
    have hh := hasSuffix_append_ne (natChars n) strS strH rfl rfl (by decide) (by decide)
    have hhr := hasSuffix_append_ne (natChars n) strS strHr rfl rfl (by decide) (by decide)
    rw [parseCountdown]
    simp only [hd, hw, hm, hmin, hh, hhr, attemptNum_false, Bool.or_self]
    rw [hasSuffix_append_self]
    simp only [Bool.true_or]
    rw [trimSuffix_append_ne (natChars n) strS strSec rfl rfl (by decide) (by decide),
      trimSuffix_append_self, attemptNum, if_pos rfl, goAtoi_natChars hn63]
    simp only []
    rw [durMul_id (by rw [goSecond]; nlinarith) (by rw [goSecond]; nlinarith), goSecond]
  case sec =>
    have hn63 : (n : Int) ≤ 9223372036854775807 := by nlinarith
    have hd := hasSuffix_append_ne (natChars n) strSec strD rfl rfl (by decide) (by decide)
    have hw := hasSuffix_append_ne (natChars n) strSec strW rfl rfl (by decide) (by decide)
    have hm := hasSuffix_append_ne (natChars n) strSec strM rfl rfl (by decide) (by decide)
    have hmin := hasSuffix_append_ne (natChars n) strSec strMin rfl rfl (by decide) (by decide)
    have hh := hasSuffix_append_ne (natChars n) strSec strH rfl rfl (by decide) (by decide)
    have hhr := hasSuffix_append_ne (natChars n) strSec strHr rfl rfl (by decide) (by decide)
    have hs := hasSuffix_append_ne (natChars n) strSec strS rfl rfl (by decide) (by decide)
    rw [parseCountdown]
    simp only [hd, hw, hm, hmin, hh, hhr, hs, attemptNum_false, Bool.or_self,
      Bool.false_or]
    rw [hasSuffix_append_self, attemptNum, if_pos rfl, trimSuffix_append_self]
    simp only [strS]
    rw [trimSuffix_natChars_letter n (by decide), goAtoi_natChars hn63]
    simp only []
    rw [durMul_id (by rw [goSecond]; nlinarith) (by rw [goSecond]; nlinarith), goSecond]
  case m =>
    have hn63 : (n : Int) ≤ 9223372036854775807 := by nlinarith
    have hd := hasSuffix_append_ne (natChars n) strM strD rfl rfl (by decide) (by decide)
    have hw := hasSuffix_append_ne (natChars n) strM strW rfl rfl (by decide) (by decide)
    rw [parseCountdown]
    simp only [hd, hw, attemptNum_false]
    rw [hasSuffix_append_self]
    simp only [Bool.true_or]
    rw [trimSuffix_append_ne (natChars n) strM strMin rfl rfl (by decide) (by decide),
      trimSuffix_append_self, attemptNum, if_pos rfl, goAtoi_natChars hn63]
    simp only []
    rw [durMul_id (by rw [goMinute]; nlinarith) (by rw [goMinute]; nlinarith), goMinute]
  case min =>
    have hn63 : (n : Int) ≤ 9223372036854775807 := by nlinarith
    have hd := hasSuffix_append_ne (natChars n) strMin strD rfl rfl (by decide) (by decide)
    have hw := hasSuffix_append_ne (natChars n) strMin strW rfl rfl (by decide) (by decide)
    have hm := hasSuffix_append_ne (natChars n) strMin strM rfl rfl (by decide) (by decide)
    rw [parseCountdown]
    simp only [hd, hw, hm, attemptNum_false, Bool.false_or]
    rw [hasSuffix_append_self, attemptNum, if_pos rfl, trimSuffix_append_self]
    simp only [strM]
    rw [trimSuffix_natChars_letter n (by decide), goAtoi_natChars hn63]
    simp only []
    rw [durMul_id (by rw [goMinute]; nlinarith) (by rw [goMinute]; nlinarith), goMinute]
  case h =>
    have hn63 : (n : Int) ≤ 9223372036854775807 := by nlinarith
    have hd := hasSuffix_append_ne (natChars n) strH strD rfl rfl (by decide) (by decide)
    have hw := hasSuffix_append_ne (natChars n) strH strW rfl rfl (by decide) (by decide)
    have hm := hasSuffix_append_ne (natChars n) strH strM rfl rfl (by decide) (by decide)
    have hmin := hasSuffix_append_ne (natChars n) strH strMin rfl rfl (by decide) (by decide)
    rw [parseCountdown]
    simp only [hd, hw, hm, hmin, attemptNum_false, Bool.or_self]
    rw [hasSuffix_append_self]
    simp only [Bool.true_or]
    rw [trimSuffix_append_ne (natChars n) strH strHr rfl rfl (by decide) (by decide),
      trimSuffix_append_self, attemptNum, if_pos rfl, goAtoi_natChars hn63]
    simp only []
    rw [durMul_id (by rw [goHour]; nlinarith) (by rw [goHour]; nlinarith), goHour]
  case hr =>
    have hn63 : (n : Int) ≤ 9223372036854775807 := by nlinarith
    have hd := hasSuffix_append_ne (natChars n) strHr strD rfl rfl (by decide) (by decide)
    have hw := hasSuffix_append_ne (natChars n) strHr strW rfl rfl (by decide) (by decide)
    have hm := hasSuffix_append_ne (natChars n) strHr strM rfl rfl (by decide) (by decide)
    have hmin := hasSuffix_append_ne (natChars n) strHr strMin rfl rfl (by decide) (by decide)
    have hh := hasSuffix_append_ne (natChars n) strHr strH rfl rfl (by decide) (by decide)
    rw [parseCountdown]
    simp only [hd, hw, hm, hmin, hh, attemptNum_false, Bool.or_self, Bool.false_or]
    rw [hasSuffix_append_self, attemptNum, if_pos rfl, trimSuffix_append_self]
    simp only [strH]
    rw [trimSuffix_natChars_letter n (by decide), goAtoi_natChars hn63]
    simp only []
    rw [durMul_id (by rw [goHour]; nlinarith) (by rw [goHour]; nlinarith), goHour]
  case d =>
    have hn63 : (n : Int) ≤ 9223372036854775807 := by nlinarith
    have h24 : (n : Int) * 24 ≤ 9223372036854775807 := by nlinarith
    have hge : (0 : Int) ≤ (n : Int) * 24 := by positivity
    have hge2 : (0 : Int) ≤ (n : Int) * 24 * goHour := by rw [goHour]; positivity
    rw [parseCountdown, attemptNum, hasSuffix_append_self, if_pos rfl,
      trimSuffix_append_self, goAtoi_natChars hn63]
    simp only []
    rw [durMul_id (by omega) h24, durMul_id (by omega) (by rw [goHour]; nlinarith)]
    rw [goHour]
    ring_nf
  case w =>
    have hn63 : (n : Int) ≤ 9223372036854775807 := by nlinarith
    have hd := hasSuffix_append_ne (natChars n) strW strD rfl rfl (by decide) (by decide)
    rw [parseCountdown]
    simp only [hd, attemptNum_false]
    have h7 : (n : Int) * 7 ≤ 9223372036854775807 := by nlinarith
    have h7ge : (0 : Int) ≤ (n : Int) * 7 := by positivity
    have h168 : (n : Int) * 7 * 24 ≤ 9223372036854775807 := by nlinarith
    have h168ge : (0 : Int) ≤ (n : Int) * 7 * 24 := by positivity
    have hge2 : (0 : Int) ≤ (n : Int) * 7 * 24 * goHour := by rw [goHour]; positivity
    rw [hasSuffix_append_self, attemptNum, if_pos rfl, trimSuffix_append_self,
      goAtoi_natChars hn63]
    simp only []
    rw [durMul_id (by omega) h7, durMul_id (by omega) h168,
      durMul_id (by omega) (by rw [goHour]; nlinarith)]
    rw [goHour]
    ring_nf

/-- Negative countdown specs: `-{n}s` is accepted by `parseCountdown`
(Go `Atoi` parses the sign) and puts the target `n` seconds in the
past. -/
theorem parseCountdown_neg_seconds (n : Nat) (now : Int)
    (h : (n : Int) * 1000000000 ≤ 9223372036854775808) :
    parseCountdown ('-' :: (natChars n ++ strS)) now
      = some (now - (n : Int) * 1000000000) := by
  have hn0 : (0 : Int) ≤ (n : Int) := Int.ofNat_nonneg n
  have hn64 : (n : Int) ≤ 9223372036854775808 := by nlinarith
  have hrw : '-' :: (natChars n ++ strS) = ('-' :: natChars n) ++ strS := rfl
  rw [hrw]
  have hd := hasSuffix_append_ne ('-' :: natChars n) strS strD rfl rfl (by decide) (by decide)
  have hw := hasSuffix_append_ne ('-' :: natChars n) strS strW rfl rfl (by decide) (by decide)
  have hm := hasSuffix_append_ne ('-' :: natChars n) strS strM rfl rfl (by decide) (by decide)
  have hmin := hasSuffix_append_ne ('-' :: natChars n) strS strMin rfl rfl (by decide) (by decide)
  have hh := hasSuffix_append_ne ('-' :: natChars n) strS strH rfl rfl (by decide) (by decide)
  have hhr := hasSuffix_append_ne ('-' :: natChars n) strS strHr rfl rfl (by decide) (by decide)
  rw [parseCountdown]
  simp only [hd, hw, hm, hmin, hh, hhr, attemptNum_false, Bool.or_self]
  rw [hasSuffix_append_self]
  simp only [Bool.true_or]
  rw [trimSuffix_append_ne ('-' :: natChars n) strS strSec rfl rfl (by decide) (by decide),
    trimSuffix_append_self, attemptNum, if_pos rfl, goAtoi_neg_natChars hn64]
  simp only []
  rw [durMul_id (by rw [goSecond]; nlinarith) (by rw [goSecond]; nlinarith), goSecond]
  ring_nf

theorem parse12core_bounds {sp lm : Bool} {s : List Char} {hm : Nat × Nat}
    (h : parse12core sp lm s = some hm) : hm.1 < 24 ∧ hm.2 < 60 := by
  unfold parse12core at h
  repeat' split at h
  any_goals exact Option.noConfusion h
  all_goals
    injection h with h
    subst h
    exact ⟨by dsimp only; omega, by dsimp only; omega⟩

theorem parse24core_bounds {s : List Char} {hm : Nat × Nat}
    (h : parse24core s = some hm) : hm.1 < 24 ∧ hm.2 < 60 := by
  unfold parse24core at h
  repeat' split at h
  any_goals exact Option.noConfusion h
  all_goals
    injection h with h
    subst h
    exact ⟨by dsimp only; omega, by dsimp only; omega⟩

theorem resolveAlarm_ge (now : Int) (hm : Nat × Nat) : now ≤ resolveAlarm now hm := by
  unfold resolveAlarm dayStart
  have h1 : 0 ≤ now % goDay := Int.emod_nonneg now (by norm_num [goDay])
  have h2 : now % goDay < goDay := Int.emod_lt_of_pos now (by norm_num [goDay])
  have h3 : (0 : Int) ≤ (hm.1 : Int) * goHour := mul_nonneg (Int.ofNat_nonneg _) (by norm_num [goHour])
  have h4 : (0 : Int) ≤ (hm.2 : Int) * goMinute := mul_nonneg (Int.ofNat_nonneg _) (by norm_num [goMinute])
  split <;> omega

theorem dvd_resolveAlarm (now : Int) (hm : Nat × Nat) :
    (60000000000 : Int) ∣ resolveAlarm now hm := by
  have hq : dayStart now = goDay * (now / goDay) := by
    unfold dayStart; rw [Int.emod_def]; ring
  unfold resolveAlarm
  split
  · rw [hq]
    exact ⟨1440 * (now / goDay) + 60 * (hm.1 : Int) + (hm.2 : Int) + 1440,
      by rw [goDay, goHour, goMinute]; ring⟩
  · rw [hq]
    exact ⟨1440 * (now / goDay) + 60 * (hm.1 : Int) + (hm.2 : Int),
      by rw [goDay, goHour, goMinute]; ring⟩

theorem parseAlarmTime_resolve {s : List Char} {now t : Int}
    (h : parseAlarmTime s now = some t) :
    ∃ hm : Nat × Nat, hm.1 < 24 ∧ hm.2 < 60 ∧ t = resolveAlarm now hm := by
  unfold parseAlarmTime at h
  repeat' split at h
  all_goals first
    | exact Option.noConfusion h
    | (rename_i hm heq
       injection h with h
       exact ⟨hm, (parse12core_bounds heq).1, (parse12core_bounds heq).2, h.symm⟩)
    | (rename_i hm heq
       injection h with h
       exact ⟨hm, (parse24core_bounds heq).1, (parse24core_bounds heq).2, h.symm⟩)

/- ---------------------------------------------------------------- -/
/- Claims                                                            -/
/- ---------------------------------------------------------------- -/

/-- C1 (amended): for a reminder with status `active`, `notified`
false and a non-zero `targetTime`, an evaluation tick at `now` expires
it and emits exactly one notify intent when `now` is strictly after
`targetTime` (`time.Now().After`), and leaves it unchanged with no
intent otherwise (in particular when `now = targetTime`). -/
theorem tickExpire_strictly_after (r : Reminder) (now : Int)
    (ha : r.status = strActive) (hn : r.notified = false) (ht : r.targetTime ≠ 0) :
    tickReminder now r =
      if r.targetTime < now then
        ({ r with notified := true, status := strExpired }, 1)
      else (r, 0) := by
  by_cases hlt : r.targetTime < now
  · rw [if_pos hlt, tickReminder, if_pos ⟨ht, hn, ha, hlt⟩]
  · rw [if_neg hlt, tickReminder, if_neg (fun hc => hlt hc.2.2.2)]

/-- Witness for C1 at a concrete reminder and tick instant. -/
theorem tickExpire_strictly_after_witness :
    tickReminder 150 (sampleReminder strActive 100 0 false) =
      if (sampleReminder strActive 100 0 false).targetTime < 150 then
        ({ sampleReminder strActive 100 0 false with
            notified := true, status := strExpired }, 1)
      else (sampleReminder strActive 100 0 false, 0) :=
  tickExpire_strictly_after (sampleReminder strActive 100 0 false) 150 rfl rfl (by decide)

/-- C1 counterexample: at `now = targetTime` (where the claim's
`now ≥ targetTime` demands expiry and one intent), the code's strict
`After` leaves the reminder active and unchanged and emits nothing. -/
theorem tickExpire_at_exact_target_cex :
    tickReminder 100 (sampleReminder strActive 100 0 false) =
      (sampleReminder strActive 100 0 false, 0) ∧
    (sampleReminder strActive 100 0 false).status ≠ strExpired := by
  constructor
  · decide
  · decide

/-- C2: a tick that fires the expiry transition emits exactly one
notify intent, sets `notified` and `expired`, and every later tick on
the resulting reminder is a no-op emitting no further intent. -/
theorem tickExpire_idempotent (r : Reminder) (now1 now2 : Int)
    (ha : r.status = strActive) (hn : r.notified = false) (ht : r.targetTime ≠ 0)
    (hf : r.targetTime < now1) :
    (tickReminder now1 r).2 = 1 ∧
    (tickReminder now1 r).1.notified = true ∧
    (tickReminder now1 r).1.status = strExpired ∧
    tickReminder now2 (tickReminder now1 r).1 = ((tickReminder now1 r).1, 0) := by
  have h1 : tickReminder now1 r = ({ r with notified := true, status := strExpired }, 1) := by
    rw [tickReminder, if_pos ⟨ht, hn, ha, hf⟩]
  rw [h1]
  refine ⟨rfl, rfl, rfl, ?_⟩
  rw [tickReminder, if_neg ?_]
  intro hc
  exact absurd hc.2.1 (by simp)

/-- Witness for C2 at a concrete reminder and tick instants. -/
theorem tickExpire_idempotent_witness :
    (tickReminder 150 (sampleReminder strActive 100 0 false)).2 = 1 ∧
    (tickReminder 150 (sampleReminder strActive 100 0 false)).1.notified = true ∧
    (tickReminder 150 (sampleReminder strActive 100 0 false)).1.status = strExpired ∧
    tickReminder 999 (tickReminder 150 (sampleReminder strActive 100 0 false)).1 =
      ((tickReminder 150 (sampleReminder strActive 100 0 false)).1, 0) :=
  tickExpire_idempotent (sampleReminder strActive 100 0 false) 150 999 rfl rfl
    (by decide) (by decide)

/-- C9: `start` on an already-active reminder and `pause` on a
non-active reminder are rejected with a surfaced message and leave
every field of the reminder unchanged. -/
theorem invalid_transition_rejected (r r2 : Reminder) (now now2 : Int)
    (h1 : r.status = strActive) (h2 : r2.status ≠ strActive) :
    toggleReminderStatus actStart now r = (r, some .alreadyActive) ∧
    toggleReminderStatus actPause now2 r2 = (r2, some .notActive) := by
  constructor
  · rw [toggleReminderStatus, if_pos rfl,
      if_neg (show ¬ r.status = strPaused by rw [h1]; decide),
      if_neg (show ¬ r.status = strInactive by rw [h1]; decide)]
  · rw [toggleReminderStatus, if_neg (by decide), if_pos rfl, if_neg h2]

/-- Witness for C9 at concrete reminders. -/
theorem invalid_transition_rejected_witness :
    toggleReminderStatus actStart 50 (sampleReminder strActive 100 0 false) =
      (sampleReminder strActive 100 0 false, some .alreadyActive) ∧
    toggleReminderStatus actPause 60 (sampleReminder strExpired 100 0 true) =
      (sampleReminder strExpired 100 0 true, some .notActive) :=
  invalid_transition_rejected (sampleReminder strActive 100 0 false)
    (sampleReminder strExpired 100 0 true) 50 60 rfl (by decide)

/-- C10: a new reminder whose spec fails both parsers keeps the
empty-string status and zero target; `start` on an empty-status
reminder leaves it completely unchanged, and more generally `start`
changes the reminder only when its status is exactly `paused` or
`inactive`. -/
theorem parse_failed_never_started (nextId : Int) (text note spec : List Char)
    (now now2 now3 : Int) (r r2 : Reminder)
    (hc : parseCountdown spec now = none) (ha : parseAlarmTime spec now = none)
    (hr : r.status = [])
    (h2p : r2.status ≠ strPaused) (h2i : r2.status ≠ strInactive) :
    (mkNewReminder nextId text note spec now).status = [] ∧
    (mkNewReminder nextId text note spec now).targetTime = 0 ∧
    (toggleReminderStatus actStart now2 r).1 = r ∧
    (toggleReminderStatus actStart now3 r2).1 = r2 := by
  refine ⟨?_, ?_, ?_, ?_⟩
  · simp only [mkNewReminder, hc, ha]
  · simp only [mkNewReminder, hc, ha]
  · rw [toggleReminderStatus, if_pos rfl,
      if_neg (show ¬ r.status = strPaused by rw [hr]; decide),
      if_neg (show ¬ r.status = strInactive by rw [hr]; decide)]
  · rw [toggleReminderStatus, if_pos rfl, if_neg h2p, if_neg h2i]

/-- Witness for C10: the spec "xyz" fails both parsers; the resulting
empty-status reminder cannot be started. -/
theorem parse_failed_never_started_witness :
    (mkNewReminder 1 [] [] ['x', 'y', 'z'] 0).status = [] ∧
    (mkNewReminder 1 [] [] ['x', 'y', 'z'] 0).targetTime = 0 ∧
    (toggleReminderStatus actStart 5 (sampleReminder [] 0 0 false)).1 =
      sampleReminder [] 0 0 false ∧
    (toggleReminderStatus actStart 6 (sampleReminder strExpired 100 0 true)).1 =
      sampleReminder strExpired 100 0 true :=
  parse_failed_never_started 1 [] [] ['x', 'y', 'z'] 0 5 6
    (sampleReminder [] 0 0 false) (sampleReminder strExpired 100 0 true)
    (by decide) (by decide) rfl (by decide) (by decide)

theorem resetDaily_idem (b : Int) (d : Daily) :
    resetDaily b (resetDaily b d) = resetDaily b d := by
  unfold resetDaily
  split
  · rw [if_neg (fun hc => absurd hc.1 (by decide : ¬ strINCOMPLETE = strDONE))]
  · rfl

/-- C8: the daily reset pass maps every task through the reset rule
(`DONE` and completed strictly before the boundary becomes
`INCOMPLETE` with cleared completion time, everything else is
untouched), the boundary is today's 03:00 local or yesterday's 03:00
when `now` is before today's 03:00, and the pass is idempotent. -/
theorem daily_reset_characterisation (now : Int) (ds : List Daily) :
    (resetDailyTasks now ds).1 = ds.map (fun d =>
        if d.status = strDONE ∧ d.lastCompleted < getMostRecent3AM now then
          { d with status := strINCOMPLETE, lastCompleted := 0 } else d) ∧
    getMostRecent3AM now =
      (if now < dayStart now + 3 * goHour then dayStart now + 3 * goHour - goDay
       else dayStart now + 3 * goHour) ∧
    (resetDailyTasks now (resetDailyTasks now ds).1).1 = (resetDailyTasks now ds).1 := by
  refine ⟨rfl, rfl, ?_⟩
  simp only [resetDailyTasks, List.map_map]
  induction ds with
  | nil => rfl
  | cons d t ih =>
    simp only [List.map_cons, Function.comp_apply, resetDaily_idem, List.cons.injEq,
      true_and]
    simpa using ih

/-- C3 (amended): pausing an active reminder with a non-zero
`targetTime` stores `max 0 (targetTime - now)` (the difference
saturating at the 64-bit duration bound) and sets status `paused`
without touching `notified`; a zero `targetTime` leaves
`pausedRemaining` untouched.  Resuming a paused reminder with positive
`pausedRemaining` sets `targetTime = now + pausedRemaining`, clears
`pausedRemaining` and makes it active and un-notified; hence a
pause-resume round trip at `targetTime - d` (for `0 < d` within the
duration range) restores `targetTime` to `now + d` exactly. -/
theorem pause_resume_preserves_remaining (r r2 : Reminder) (now now2 d : Int)
    (h1 : r.status = strActive) (h2 : r.targetTime ≠ 0)
    (h3 : r.targetTime - now < 9223372036854775808)
    (hp : r2.status = strPaused) (hpr : r2.pausedRemaining > 0)
    (hd1 : 0 < d) (hd2 : d < 9223372036854775808) :
    toggleReminderStatus actPause now r =
      ({ r with pausedRemaining := max 0 (r.targetTime - now), status := strPaused },
        some .pausedOk) ∧
    toggleReminderStatus actStart now2 r2 =
      ({ r2 with
          targetTime := now2 + r2.pausedRemaining, pausedRemaining := 0,
          status := strActive, notified := false }, some .resumed) ∧
    ((toggleReminderStatus actStart (r.targetTime - d)
        (toggleReminderStatus actPause (r.targetTime - d) r).1).1.targetTime
      = (r.targetTime - d) + d ∧
     (toggleReminderStatus actStart (r.targetTime - d)
        (toggleReminderStatus actPause (r.targetTime - d) r).1).1.status = strActive ∧
     (toggleReminderStatus actStart (r.targetTime - d)
        (toggleReminderStatus actPause (r.targetTime - d) r).1).1.notified = false ∧
     (toggleReminderStatus actStart (r.targetTime - d)
        (toggleReminderStatus actPause (r.targetTime - d) r).1).1.pausedRemaining = 0) := by
  have hpause : ∀ m : Int, r.targetTime - m < 9223372036854775808 →
      toggleReminderStatus actPause m r =
        ({ r with pausedRemaining := max 0 (r.targetTime - m), status := strPaused },
          some .pausedOk) := by
    intro m hm
    rw [toggleReminderStatus, if_neg (by decide), if_pos rfl, if_pos h1, if_pos h2]
    have heq : (if goUntil r.targetTime m < 0 then 0 else goUntil r.targetTime m)
        = max 0 (r.targetTime - m) := by
      unfold goUntil satDur
      split_ifs <;> omega
    rw [heq]
  refine ⟨hpause now h3, ?_, ?_⟩
  · rw [toggleReminderStatus, if_pos rfl, if_pos hp, if_pos hpr]
  · have hd3 : r.targetTime - (r.targetTime - d) < 9223372036854775808 := by omega
    rw [hpause (r.targetTime - d) hd3]
    have hmax : max 0 (r.targetTime - (r.targetTime - d)) = d := by omega
    simp only [hmax]
    rw [toggleReminderStatus, if_pos rfl, if_pos rfl, if_pos hd1]
    exact ⟨rfl, rfl, rfl, rfl⟩

/-- Witness for C3 at a concrete reminder (target 1000, paused and
resumed at 400, i.e. `d = 600`). -/
theorem pause_resume_preserves_remaining_witness :
    toggleReminderStatus actPause 400 (sampleReminder strActive 1000 0 false) =
      ({ sampleReminder strActive 1000 0 false with
          pausedRemaining := max 0 ((sampleReminder strActive 1000 0 false).targetTime - 400),
          status := strPaused }, some .pausedOk) ∧
    toggleReminderStatus actStart 50 (sampleReminder strPaused 0 70 true) =
      ({ sampleReminder strPaused 0 70 true with
          targetTime := 50 + (sampleReminder strPaused 0 70 true).pausedRemaining,
          pausedRemaining := 0, status := strActive, notified := false }, some .resumed) ∧
    (((toggleReminderStatus actStart ((sampleReminder strActive 1000 0 false).targetTime - 600)
        (toggleReminderStatus actPause ((sampleReminder strActive 1000 0 false).targetTime - 600)
          (sampleReminder strActive 1000 0 false)).1).1.targetTime
      = ((sampleReminder strActive 1000 0 false).targetTime - 600) + 600) ∧
     (toggleReminderStatus actStart ((sampleReminder strActive 1000 0 false).targetTime - 600)
        (toggleReminderStatus actPause ((sampleReminder strActive 1000 0 false).targetTime - 600)
          (sampleReminder strActive 1000 0 false)).1).1.status = strActive ∧
     (toggleReminderStatus actStart ((sampleReminder strActive 1000 0 false).targetTime - 600)
        (toggleReminderStatus actPause ((sampleReminder strActive 1000 0 false).targetTime - 600)
          (sampleReminder strActive 1000 0 false)).1).1.notified = false ∧
     (toggleReminderStatus actStart ((sampleReminder strActive 1000 0 false).targetTime - 600)
        (toggleReminderStatus actPause ((sampleReminder strActive 1000 0 false).targetTime - 600)
          (sampleReminder strActive 1000 0 false)).1).1.pausedRemaining = 0) :=
  pause_resume_preserves_remaining (sampleReminder strActive 1000 0 false)
    (sampleReminder strPaused 0 70 true) 400 50 600 rfl (by decide) (by decide)
    rfl (by decide) (by decide) (by decide)

/-- C3 counterexample: pausing an active reminder whose `targetTime`
is the zero time leaves `pausedRemaining` untouched (here 7), while
the claim demands `max 0 (targetTime - now) = 0`. -/
theorem pause_zero_target_cex :
    (toggleReminderStatus actPause 100 (sampleReminder strActive 0 7 false)).1.pausedRemaining
      = 7 ∧
    (7 : Int) ≠ max 0 ((0 : Int) - 100) := by
  constructor
  · decide
  · decide

/-- C4 (amended): for every countdown spec `{n}{unit}` whose total
duration `n * unit` fits the 64-bit `time.Duration` range, parsing
succeeds as a countdown with `targetTime = now + n * unit` exactly. -/
theorem countdown_exact_in_range (u : CUnit) (n : Nat) (now : Int)
    (h : (n : Int) * unitNs u ≤ 9223372036854775807) :
    parseCountdown (natChars n ++ unitChars u) now
      = some (now + (n : Int) * unitNs u) :=
  parseCountdown_units u n now h

/-- Witness for C4: "30s" at `now = 0` parses to 30 seconds. -/
theorem countdown_exact_in_range_witness :
    parseCountdown (natChars 30 ++ unitChars CUnit.s) 0
      = some (0 + (30 : Int) * unitNs CUnit.s) :=
  countdown_exact_in_range CUnit.s 30 0 (by decide)

/-- C4 counterexample: the spec `"9223372036854775808s"` (n = 2^63, a
perfectly good non-negative integer) is rejected: Go `Atoi` fails with
a range error on every suffix rule, so parsing does not succeed. -/
theorem countdown_overflow_cex :
    parseCountdown
      ['9', '2', '2', '3', '3', '7', '2', '0', '3', '6', '8', '5', '4', '7',
       '7', '5', '8', '0', '8', 's'] 0 = none := by
  decide

/-- C6 (amended): the numeric prefix is parsed by Go `Atoi`, which
accepts an optional sign: `-{n}s` IS accepted as a countdown, with
`targetTime = now - n` seconds (no non-negativity check); a prefix
that fails integer parsing falls through every suffix rule and the
spec is rejected (for example "xs"). -/
theorem countdown_signed_prefix (n : Nat) (now : Int)
    (h : (n : Int) * 1000000000 ≤ 9223372036854775808) :
    parseCountdown ('-' :: (natChars n ++ strS)) now
      = some (now - (n : Int) * 1000000000) ∧
    parseCountdown ['x', 's'] now = none :=
  ⟨parseCountdown_neg_seconds n now h, rfl⟩

/-- Witness for C6: "-5s" at `now = 100` is accepted, five seconds in
the past. -/
theorem countdown_signed_prefix_witness :
    parseCountdown ('-' :: (natChars 5 ++ strS)) 100
      = some (100 - (5 : Int) * 1000000000) ∧
    parseCountdown ['x', 's'] 100 = none :=
  countdown_signed_prefix 5 100 (by decide)

/-- C6 counterexample: `"-5s"` is accepted as a countdown (the claim
says it matches no countdown rule). -/
theorem negative_countdown_accepted_cex :
    parseCountdown ['-', '5', 's'] 100 = some (-4999999900) := by
  decide

/-- C5 (amended): every successful alarm parse combines a parsed
hour/minute (hour < 24 after the AM/PM fold, minute < 60) with `now`'s
calendar date, zeroes the seconds and sub-seconds (the target is a
whole minute), and advances by exactly 24 hours precisely when the
assembled timestamp is strictly before `now`; a timestamp exactly
equal to `now` is returned unadvanced. -/
theorem alarm_resolution_rule (s : List Char) (now t : Int)
    (h : parseAlarmTime s now = some t) :
    (∃ hm : Nat × Nat, hm.1 < 24 ∧ hm.2 < 60 ∧
      t = (if dayStart now + (hm.1 : Int) * goHour + (hm.2 : Int) * goMinute < now
           then dayStart now + (hm.1 : Int) * goHour + (hm.2 : Int) * goMinute + goDay
           else dayStart now + (hm.1 : Int) * goHour + (hm.2 : Int) * goMinute)) ∧
    (60000000000 : Int) ∣ t := by
  obtain ⟨hm, hb1, hb2, ht⟩ := parseAlarmTime_resolve h
  refine ⟨⟨hm, hb1, hb2, by rw [ht]; rfl⟩, ?_⟩
  rw [ht]
  exact dvd_resolveAlarm now hm

/-- Witness for C5: "09:30" parsed at 14:00 of day 0 gives 09:30 of
day 1. -/
theorem alarm_resolution_rule_witness :
    (∃ hm : Nat × Nat, hm.1 < 24 ∧ hm.2 < 60 ∧
      (120600000000000 : Int) =
        (if dayStart 50400000000000 + (hm.1 : Int) * goHour + (hm.2 : Int) * goMinute
              < 50400000000000
         then dayStart 50400000000000 + (hm.1 : Int) * goHour + (hm.2 : Int) * goMinute
              + goDay
         else dayStart 50400000000000 + (hm.1 : Int) * goHour
              + (hm.2 : Int) * goMinute)) ∧
    (60000000000 : Int) ∣ (120600000000000 : Int) :=
  alarm_resolution_rule ['0', '9', ':', '3', '0'] 50400000000000 120600000000000
    (by decide)

/-- C5 counterexample: with `now` exactly 15:30:00.000 and spec
"15:30", the assembled timestamp equals `now` (not strictly after),
yet the code returns it unadvanced, while the claim demands a 24-hour
advance. -/
theorem alarm_equal_now_cex :
    parseAlarmTime ['1', '5', ':', '3', '0'] 55800000000000
      = some 55800000000000 ∧
    (55800000000000 : Int) ≠ 55800000000000 + 86400000000000 := by
  constructor
  · decide
  · decide

/-- C7 (amended): a successful alarm parse yields `targetTime ≥ now`,
strictly greater whenever `now` is not exactly on a whole minute; a
countdown `{n}{unit}` in range yields `targetTime = now + n * unit`,
strictly in the future exactly when `n ≥ 1` — so the zero countdown
"0s" (and negative countdowns) violate strict futurity. -/
theorem parsed_target_not_past (s : List Char) (now t : Int) (u : CUnit) (n : Nat)
    (ha : parseAlarmTime s now = some t)
    (hn : 1 ≤ n) (hu : (n : Int) * unitNs u ≤ 9223372036854775807) :
    now ≤ t ∧
    (¬ (60000000000 : Int) ∣ now → now < t) ∧
    parseCountdown (natChars n ++ unitChars u) now
      = some (now + (n : Int) * unitNs u) ∧
    now < now + (n : Int) * unitNs u := by
  obtain ⟨hm, hb1, hb2, ht⟩ := parseAlarmTime_resolve ha
  have hge : now ≤ t := by rw [ht]; exact resolveAlarm_ge now hm
  refine ⟨hge, ?_, parseCountdown_units u n now hu, ?_⟩
  · intro hnd
    rcases lt_or_eq_of_le hge with hlt | heq
    · exact hlt
    · exfalso
      apply hnd
      rw [heq, ht]
      exact dvd_resolveAlarm now hm
  · have h1 : (1 : Int) ≤ (n : Int) := by exact_mod_cast hn
    have hu0 : (0 : Int) < unitNs u := by cases u <;> norm_num [unitNs]
    nlinarith

/-- Witness for C7: alarm "09:30" at 14:00 of day 0 and countdown
"30s". -/
theorem parsed_target_not_past_witness :
    (50400000000000 : Int) ≤ 120600000000000 ∧
    (¬ (60000000000 : Int) ∣ (50400000000000 : Int) →
      (50400000000000 : Int) < 120600000000000) ∧
    parseCountdown (natChars 30 ++ unitChars CUnit.s) 50400000000000
      = some (50400000000000 + (30 : Int) * unitNs CUnit.s) ∧
    (50400000000000 : Int) < 50400000000000 + (30 : Int) * unitNs CUnit.s :=
  parsed_target_not_past ['0', '9', ':', '3', '0'] 50400000000000 120600000000000
    CUnit.s 30 (by decide) (by decide) (by decide)

/-- C7 counterexample: "0s" parses successfully with
`targetTime = now`, which is not strictly in the future. -/
theorem zero_countdown_not_future_cex :
    parseCountdown ['0', 's'] 5 = some 5 ∧ ¬ ((5 : Int) < 5) := by
  constructor
  · decide
  · decide
